import Mathlib

/-!
Verification of the content-generation abstraction layer of the gemini-cli
repository: the model resolver (packages/core/src/config/models.ts), the
OpenAI-compatible provider adapters (kimiClient.ts, hunyuanContentGenerator.ts,
and the DeepSeek content generators), their stream aggregation, token
estimation, finish-reason mapping, message translation, and constructor
behaviour. Each definition is a shallow embedding of the corresponding
TypeScript function; JavaScript string truthiness and the exact conditionals
of the source are preserved.
-/

namespace GeminiCLI

/- ===== JavaScript string primitives, modelled over character lists ===== -/

/-- Boolean test that the first list is a prefix of the second. -/
def listHasPrefixOf : List Char → List Char → Bool
  | [], _ => true
  | _ :: _, [] => false
  | p :: ps, c :: cs => p == c && listHasPrefixOf ps cs

/-- Boolean test that the first list occurs contiguously inside the second. -/
def listHasInfixOf (pat : List Char) : List Char → Bool
  | [] => listHasPrefixOf pat []
  | c :: cs => listHasPrefixOf pat (c :: cs) || listHasInfixOf pat cs

/-- Model of the JavaScript call s.includes(sub): substring containment. -/
def strIncludes (s sub : String) : Bool := listHasInfixOf sub.data s.data

/-- Model of the JavaScript call s.startsWith(pat). -/
def jsStartsWith (s pat : String) : Bool := listHasPrefixOf pat.data s.data

/-- Model of the JavaScript call s.toLowerCase(), mapped per character. -/
def jsToLower (s : String) : String := String.mk (s.data.map Char.toLower)

/-- JavaScript truthiness of a string: true exactly when non-empty. -/
def jsTruthy (s : String) : Bool := !(s == "")

/-- JavaScript truthiness of an optional string: undefined and the empty
string are falsy, every other string is truthy. -/
def jsTruthyOpt : Option String → Bool
  | some s => jsTruthy s
  | none => false

/-- Model of the JavaScript idiom (x || d) on an optional string argument:
the default is used when the argument is undefined or an empty string. -/
def jsOrDefault (o : Option String) (d : String) : String :=
  match o with
  | some s => if s == "" then d else s
  | none => d

/-- Model of Array.prototype.join(sep) on a list of strings. -/
def joinSep (sep : String) : List String → String
  | [] => ""
  | [s] => s
  | s :: rest => s ++ sep ++ joinSep sep (rest)

/-- Concatenation of a list of strings, the sep-free join used with +=. -/
def catAll : List String → String
  | [] => ""
  | s :: rest => s ++ catAll rest

/- ===== packages/core/src/config/models.ts ===== -/

/-- Constant DEFAULT_GEMINI_FLASH_MODEL from models.ts. -/
def DEFAULT_GEMINI_FLASH_MODEL : String := "gemini-2.5-flash"

/-- Constant DEFAULT_HUNYUAN_STANDARD_MODEL from models.ts. -/
def DEFAULT_HUNYUAN_STANDARD_MODEL : String := "hunyuan-standard"

/-- Embedding of getEffectiveModel from models.ts: outside fallback mode the
requested model is returned unchanged; in fallback mode a model whose name
contains the substring lite is honoured, a model whose name contains hunyuan
falls back to the Hunyuan standard model, and every other model falls back to
the Gemini Flash model. -/
def getEffectiveModel (isInFallbackMode : Bool) (requestedModel : String) : String :=
  if !isInFallbackMode then
    requestedModel
  else if strIncludes requestedModel "lite" then
    requestedModel
  else if strIncludes requestedModel "hunyuan" then
    DEFAULT_HUNYUAN_STANDARD_MODEL
  else
    DEFAULT_GEMINI_FLASH_MODEL

/-- C1: in fallback mode, a requested model whose name does not contain the
substring lite is downgraded: names containing hunyuan resolve to the Hunyuan
family fallback model hunyuan-standard, which differs from the system-wide
default, and every other such name resolves to the system-wide default
fallback model gemini-2.5-flash. -/
theorem c1_fallback_downgrade (m : String)
    (hlite : strIncludes m "lite" = false) :
    (strIncludes m "hunyuan" = true →
      getEffectiveModel true m = DEFAULT_HUNYUAN_STANDARD_MODEL) ∧
    (strIncludes m "hunyuan" = false →
      getEffectiveModel true m = DEFAULT_GEMINI_FLASH_MODEL) ∧
    DEFAULT_HUNYUAN_STANDARD_MODEL ≠ DEFAULT_GEMINI_FLASH_MODEL := by
  refine ⟨?_, ?_, by decide⟩ <;> intro hh <;> simp [getEffectiveModel, hlite, hh]

/-- Witness for C1 at the concrete models hunyuan-pro and gemini-2.5-pro. -/
theorem c1_fallback_downgrade_witness :
    getEffectiveModel true "hunyuan-pro" = DEFAULT_HUNYUAN_STANDARD_MODEL ∧
    getEffectiveModel true "gemini-2.5-pro" = DEFAULT_GEMINI_FLASH_MODEL :=
  ⟨(c1_fallback_downgrade "hunyuan-pro" (by decide)).1 (by decide),
   (c1_fallback_downgrade "gemini-2.5-pro" (by decide)).2.1 (by decide)⟩

/-- C2: with the fallback flag false the resolver returns every requested
model unchanged, and with the fallback flag true it returns every model whose
name contains the substring lite unchanged. -/
theorem c2_identity_cases (m : String) :
    getEffectiveModel false m = m ∧
    (strIncludes m "lite" = true → getEffectiveModel true m = m) := by
  refine ⟨by simp [getEffectiveModel], fun hl => by simp [getEffectiveModel, hl]⟩

/-- Witness for C2 at the concrete model gemini-2.5-flash-lite. -/
theorem c2_identity_cases_witness :
    getEffectiveModel false "gemini-2.5-flash-lite" = "gemini-2.5-flash-lite" ∧
    getEffectiveModel true "gemini-2.5-flash-lite" = "gemini-2.5-flash-lite" :=
  ⟨(c2_identity_cases "gemini-2.5-flash-lite").1,
   (c2_identity_cases "gemini-2.5-flash-lite").2 (by decide)⟩

/- ===== Unified data model (the @google/genai Content and Part shapes
   actually consumed by the adapters) ===== -/

/-- A content part: exactly one variant populated, mirroring the Part union
fields the adapters probe (text, inlineData, functionCall, functionResponse). -/
inductive GPart where
  | text (s : String)
  | inlineData (mimeType data : String)
  | functionCall (name args : String)
  | functionResponse (name response : String)
deriving DecidableEq, Repr

/-- The value of the JavaScript field access part.text: the string for a text
part, undefined for every other variant. -/
def GPart.textOpt : GPart → Option String
  | .text s => some s
  | _ => none

/-- Model of the JavaScript idiom (part.text || empty string). -/
def GPart.textOrEmpty (p : GPart) : String :=
  match p.textOpt with
  | some s => s
  | none => ""

/-- A conversation turn: a role string and an ordered list of parts. -/
structure Content where
  role : String
  parts : List GPart
deriving DecidableEq, Repr

/- ===== Token estimation (C5) ===== -/

/-- Embedding of KimiClient.countTokens (kimiClient.ts lines 368 to 388):
per content, the text fields of all parts (empty for non-text parts) are
joined with no separator and the lengths of the joined strings are summed. -/
def kimiTotalChars : List Content → Nat
  | [] => 0
  | c :: rest => (catAll (c.parts.map GPart.textOrEmpty)).length + kimiTotalChars rest

/-- Result of KimiClient.countTokens: the ceiling of totalChars over four,
written (n + 3) / 4 on naturals. -/
def kimiCountTokens (contents : List Content) : Nat :=
  (kimiTotalChars contents + 3) / 4

/-- Embedding of DeepSeekContentGenerator.countTokens (unnamed part_003 lines
518 to 544): sums the lengths of the text fields of text parts and returns
the ceiling of the sum over four. -/
def deepSeekTotalChars : List Content → Nat
  | [] => 0
  | c :: rest =>
      (c.parts.foldr (fun p acc => (GPart.textOrEmpty p).length + acc) 0) +
        deepSeekTotalChars rest

/-- Result of DeepSeekContentGenerator.countTokens. -/
def deepSeekCountTokens (contents : List Content) : Nat :=
  (deepSeekTotalChars contents + 3) / 4

/-- Embedding of HunyuanContentGenerator.countTokens (hunyuanContentGenerator.ts
lines 110 to 119): the request is ignored and totalTokens zero is returned. -/
def hunyuanCountTokens (_contents : List Content) : Nat := 0

/-- Character count the specification prescribes for the token estimator:
the total length of the Text parts of the request, non-text parts
contributing zero. -/
def specTotalTextChars (contents : List Content) : Nat :=
  (contents.map (fun c =>
    (c.parts.map (fun p =>
      match p with
      | .text s => s.length
      | _ => 0)).sum)).sum

lemma catAll_length (l : List String) : (catAll l).length = (l.map String.length).sum := by
  induction l with
  | nil => rfl
  | cons s t ih => simp [catAll, String.length_append, ih]

lemma textOrEmpty_length (p : GPart) :
    (GPart.textOrEmpty p).length = (match p with | .text s => s.length | _ => 0) := by
  cases p <;> rfl

lemma length_comp_textOrEmpty :
    (String.length ∘ GPart.textOrEmpty)
      = (fun p : GPart => match p with | .text s => s.length | _ => 0) := by
  funext p; cases p <;> rfl

lemma kimiTotalChars_eq_spec (contents : List Content) :
    kimiTotalChars contents = specTotalTextChars contents := by
  induction contents with
  | nil => rfl
  | cons c rest ih =>
      simp only [kimiTotalChars, specTotalTextChars, List.map_cons, List.sum_cons,
        catAll_length, List.map_map, length_comp_textOrEmpty] at ih ⊢
      omega

lemma foldr_add_length (parts : List GPart) :
    parts.foldr (fun p acc => (GPart.textOrEmpty p).length + acc) 0
      = ((parts.map GPart.textOrEmpty).map String.length).sum := by
  induction parts with
  | nil => rfl
  | cons p rest ih => simp [List.foldr_cons, ih]

lemma deepSeekTotalChars_eq_spec (contents : List Content) :
    deepSeekTotalChars contents = specTotalTextChars contents := by
  induction contents with
  | nil => rfl
  | cons c rest ih =>
      simp only [deepSeekTotalChars, specTotalTextChars, List.map_cons, List.sum_cons,
        foldr_add_length, List.map_map, length_comp_textOrEmpty] at ih ⊢
      omega

/-- Counterexample to C5: on a request holding the single text part Hello,
the ceiling estimate is two tokens, but HunyuanContentGenerator.countTokens
returns zero; the Hunyuan adapter does not implement the ceiling policy. -/
theorem c5_counterexample :
    hunyuanCountTokens [⟨"user", [GPart.text "Hello"]⟩] = 0 ∧
    (specTotalTextChars [⟨"user", [GPart.text "Hello"]⟩] + 3) / 4 = 2 ∧
    hunyuanCountTokens [⟨"user", [GPart.text "Hello"]⟩] ≠
      (specTotalTextChars [⟨"user", [GPart.text "Hello"]⟩] + 3) / 4 := by
  refine ⟨rfl, by decide, by decide⟩

/-- C5 amended: the Kimi and DeepSeek adapters return exactly the ceiling of
the total character count of the Text parts divided by four, with non-text
parts contributing zero, and the result is a natural number, hence never
negative; the Hunyuan adapter instead returns zero for every request. None
of the three can throw, being total functions of the request. -/
theorem c5_token_estimates (contents : List Content) :
    kimiCountTokens contents = (specTotalTextChars contents + 3) / 4 ∧
    deepSeekCountTokens contents = (specTotalTextChars contents + 3) / 4 ∧
    hunyuanCountTokens contents = 0 := by
  refine ⟨?_, ?_, rfl⟩
  · simp [kimiCountTokens, kimiTotalChars_eq_spec]
  · simp [deepSeekCountTokens, deepSeekTotalChars_eq_spec]

/- ===== Finish-reason mapping (C6) ===== -/

/-- Unified finish-reason taxonomy used by the adapters (the @google/genai
FinishReason values they produce). -/
inductive FinishReason where
  | STOP
  | MAX_TOKENS
  | SAFETY
  | RECITATION
  | OTHER
deriving DecidableEq, Repr

/-- Embedding of DeepSeekContentGenerator.convertFinishReason (unnamed
part_002 lines 253 to 264): the switch on the provider reason string. -/
def convertFinishReason (reason : String) : FinishReason :=
  if reason = "stop" then .STOP
  else if reason = "length" then .MAX_TOKENS
  else if reason = "content_filter" then .SAFETY
  else .OTHER

/-- Embedding of the inline finish-reason translation in
convertDeepSeekResponseToGemini (unnamed part_003 lines 235 to 239): the
conditional maps stop to STOP and every other reason string to OTHER. -/
def deepSeekResponseFinishReason (reason : String) : FinishReason :=
  if reason = "stop" then .STOP else .OTHER

/-- Counterexample to C6: the finish-reason translation of the second
DeepSeek adapter maps the provider string length to OTHER, not to the
unified MaxTokens value the claim prescribes for every mapping. -/
theorem c6_counterexample :
    deepSeekResponseFinishReason "length" = .OTHER ∧
    deepSeekResponseFinishReason "length" ≠ .MAX_TOKENS := by
  exact ⟨by decide, by decide⟩

/-- C6 amended: convertFinishReason of the first DeepSeek adapter implements
the full table, mapping stop to Stop, length to MaxTokens, content_filter to
Safety and every other string to Other, while the inline mapping of the
second DeepSeek adapter maps stop to Stop and every other string, including
length and content_filter, to Other; both are total functions of the reason
string and therefore never throw. -/
theorem c6_finish_reason_tables (r : String) :
    convertFinishReason "stop" = .STOP ∧
    convertFinishReason "length" = .MAX_TOKENS ∧
    convertFinishReason "content_filter" = .SAFETY ∧
    (r ≠ "stop" → r ≠ "length" → r ≠ "content_filter" →
      convertFinishReason r = .OTHER) ∧
    deepSeekResponseFinishReason "stop" = .STOP ∧
    (r ≠ "stop" → deepSeekResponseFinishReason r = .OTHER) := by
  refine ⟨by decide, by decide, by decide, fun h1 h2 h3 => ?_, by decide, fun h1 => ?_⟩
  · simp [convertFinishReason, h1, h2, h3]
  · simp [deepSeekResponseFinishReason, h1]

/-- Witness for C6 at the unrecognized reason string tool_calls. -/
theorem c6_finish_reason_tables_witness :
    convertFinishReason "tool_calls" = .OTHER ∧
    deepSeekResponseFinishReason "tool_calls" = .OTHER :=
  ⟨(c6_finish_reason_tables "tool_calls").2.2.2.1 (by decide) (by decide) (by decide),
   (c6_finish_reason_tables "tool_calls").2.2.2.2.2 (by decide)⟩

/- ===== Adapter construction (C7, C10) ===== -/

/-- Constant KIMI_API_BASE_URL from kimiClient.ts. -/
def KIMI_API_BASE_URL : String := "https://api.moonshot.cn/v1"

/-- Constant DEEPSEEK_API_BASE_URL from unnamed part_003. -/
def DEEPSEEK_API_BASE_URL : String := "https://api.deepseek.com"

/-- Configuration stored by a constructed KimiClient instance. -/
structure KimiClientState where
  apiKey : String
  baseUrl : String
deriving DecidableEq, Repr

/-- Embedding of the KimiClient constructor (kimiClient.ts lines 170 to 180):
a falsy (empty) apiKey throws the configuration error KIMI_API_KEY is
required before any request is made; otherwise the instance stores the key
and the fixed base URL. -/
def kimiConstructor (apiKey : String) : Except String KimiClientState :=
  if apiKey = "" then .error "KIMI_API_KEY is required"
  else .ok ⟨apiKey, KIMI_API_BASE_URL⟩

/-- Configuration stored by a constructed HunyuanContentGenerator instance
(the OpenAI client configuration it builds). -/
structure HunyuanState where
  apiKey : String
  baseURL : String
deriving DecidableEq, Repr

/-- Embedding of the HunyuanContentGenerator constructor
(hunyuanContentGenerator.ts lines 30 to 35): no validation of the key is
performed; the instance stores the key as given and the baseURL argument or,
when that is absent or empty, the public Hunyuan endpoint. -/
def hunyuanConstructor (apiKey : String) (baseURL : Option String) :
    Except String HunyuanState :=
  .ok ⟨apiKey, jsOrDefault baseURL "https://api.hunyuan.cloud.tencent.com/v1"⟩

/-- Counterexample to C7: constructing the Hunyuan adapter with an empty API
key succeeds, storing the empty key, instead of failing with a configuration
error as the claim requires of every adapter in the OpenAI-compatible
family. -/
theorem c7_counterexample :
    hunyuanConstructor "" none =
      .ok ⟨"", "https://api.hunyuan.cloud.tencent.com/v1"⟩ := rfl

/-- C7 amended: only the Kimi adapter validates its key, failing with the
configuration error when the key is empty and succeeding otherwise; the
Hunyuan adapter accepts every key, including the empty one, without
validation. Constructors are pure: they only build instance configuration
and perform no network call in either case. -/
theorem c7_constructor_validation (k : String) :
    (k = "" → kimiConstructor k = .error "KIMI_API_KEY is required") ∧
    (k ≠ "" → kimiConstructor k = .ok ⟨k, KIMI_API_BASE_URL⟩) ∧
    (∀ b, hunyuanConstructor k b =
      .ok ⟨k, jsOrDefault b "https://api.hunyuan.cloud.tencent.com/v1"⟩) := by
  refine ⟨fun h => ?_, fun h => ?_, fun b => rfl⟩
  · simp [kimiConstructor, h]
  · simp [kimiConstructor, h]

/-- Witness for C7 at an empty and a non-empty key. -/
theorem c7_constructor_validation_witness :
    kimiConstructor "" = .error "KIMI_API_KEY is required" ∧
    kimiConstructor "test-api-key" = .ok ⟨"test-api-key", KIMI_API_BASE_URL⟩ :=
  ⟨(c7_constructor_validation "").1 rfl,
   (c7_constructor_validation "test-api-key").2.1 (by decide)⟩

/-- Configuration stored by a constructed DeepSeekContentGenerator instance
(unnamed part_003). -/
structure DeepSeekState where
  apiKey : String
  baseUrl : String
  proxy : Option String
deriving DecidableEq, Repr

/-- Embedding of the DeepSeekContentGenerator constructor (unnamed part_003
lines 327 to 337) with the process-wide undici dispatcher made explicit: the
second component is the global dispatcher proxy setting before and after
construction. When a truthy proxy argument is given the constructor calls
setGlobalDispatcher with a new ProxyAgent for it, overwriting the global
value; otherwise the global value is left untouched. -/
def deepSeekConstructor (apiKey : String) (baseUrl : Option String)
    (proxy : Option String) (globalDispatcher : Option String) :
    DeepSeekState × Option String :=
  let st : DeepSeekState := ⟨apiKey, jsOrDefault baseUrl DEEPSEEK_API_BASE_URL, proxy⟩
  if jsTruthyOpt proxy then (st, proxy) else (st, globalDispatcher)

/-- Counterexample to C10: constructing the DeepSeek adapter with a proxy
argument overwrites the process-wide dispatcher configuration, observable by
every other adapter, so construction is not free of effects outside the
instance for every argument combination. -/
theorem c10_counterexample :
    (deepSeekConstructor "k" none (some "http://localhost:8080") none).2 =
      some "http://localhost:8080" ∧
    (deepSeekConstructor "k" none (some "http://localhost:8080") none).2 ≠
      none := by
  exact ⟨rfl, by decide⟩

/-- C10 amended: constructing the DeepSeek adapter without a proxy argument,
or with an empty proxy string, leaves the process-wide dispatcher state
unchanged for every key and base URL, and all configuration is stored in the
returned instance; but a truthy proxy argument is written to the
process-wide dispatcher state shared with other adapters. -/
theorem c10_constructor_global_state (k : String) (b : Option String)
    (g : Option String) :
    (deepSeekConstructor k b none g).2 = g ∧
    (deepSeekConstructor k b (some "") g).2 = g ∧
    (deepSeekConstructor k b none g).1 =
      ⟨k, jsOrDefault b DEEPSEEK_API_BASE_URL, none⟩ ∧
    (∀ p, p ≠ "" → (deepSeekConstructor k b (some p) g).2 = some p) := by
  refine ⟨rfl, rfl, rfl, fun p hp => ?_⟩
  simp [deepSeekConstructor, jsTruthyOpt, jsTruthy, hp]

/-- Witness for C10 at a concrete proxy URL. -/
theorem c10_constructor_global_state_witness :
    (deepSeekConstructor "k" none none none).2 = none ∧
    (deepSeekConstructor "k" none (some "http://proxy.example") none).2 =
      some "http://proxy.example" :=
  ⟨(c10_constructor_global_state "k" none none).1,
   (c10_constructor_global_state "k" none none).2.2.2 "http://proxy.example"
     (by decide)⟩

/- ===== Message translation (C8) ===== -/

/-- A provider chat message in the OpenAI-compatible dialect. -/
structure OAIMessage where
  role : String
  content : String
deriving DecidableEq, Repr

/-- The filter predicate of convertToOpenAIMessages: the part is a text part
with a truthy (non-empty) text field. -/
def hasTruthyText : GPart → Bool
  | .text s => jsTruthy s
  | _ => false

/-- Embedding of the conversion loop of
HunyuanContentGenerator.convertToOpenAIMessages (hunyuanContentGenerator.ts
lines 179 to 205, reached after the ContentListUnion argument has been
normalized to a Content array): for a user or model turn, the truthy text
parts are joined with a newline separator, and the message is pushed only
when the joined string is truthy. -/
def convertToOpenAIMessages : List Content → List OAIMessage
  | [] => []
  | c :: rest =>
      let tail := convertToOpenAIMessages rest
      if c.role = "user" then
        let t := joinSep "\n" ((c.parts.filter hasTruthyText).map GPart.textOrEmpty)
        if t = "" then tail else ⟨"user", t⟩ :: tail
      else if c.role = "model" then
        let t := joinSep "\n" ((c.parts.filter hasTruthyText).map GPart.textOrEmpty)
        if t = "" then tail else ⟨"assistant", t⟩ :: tail
      else tail

/-- Embedding of the history loop of convertContentsToKimiMessages
(kimiClient.ts lines 98 to 126): per turn, the text field of each part (the
empty string for non-text parts) is taken, empty strings are filtered out,
and the remainder is joined with the empty separator, in other words
concatenated with no separator at all. -/
def kimiHistoryMessages : List Content → List OAIMessage
  | [] => []
  | c :: rest =>
      let tail := kimiHistoryMessages rest
      if c.role = "user" then
        let t := joinSep "" ((c.parts.map GPart.textOrEmpty).filter (fun s => s.length > 0))
        if t = "" then tail else ⟨"user", t⟩ :: tail
      else if c.role = "model" then
        let t := joinSep "" ((c.parts.map GPart.textOrEmpty).filter (fun s => s.length > 0))
        if t = "" then tail else ⟨"assistant", t⟩ :: tail
      else tail

/-- Embedding of convertContentsToKimiMessages (kimiClient.ts lines 71 to
129) for a plain-string system instruction: a truthy instruction becomes one
leading system message, followed by the converted history. -/
def convertContentsToKimiMessages (contents : List Content)
    (systemInstruction : Option String) : List OAIMessage :=
  (match systemInstruction with
   | some s => if s = "" then [] else [⟨"system", s⟩]
   | none => []) ++ kimiHistoryMessages contents

/-- Counterexample to C8: the Kimi translator concatenates the two text
parts a and b of one user turn with no separator, producing ab rather than
the newline-joined string the claim prescribes for every adapter. -/
theorem c8_counterexample :
    convertContentsToKimiMessages [⟨"user", [GPart.text "a", GPart.text "b"]⟩] none =
      [⟨"user", "ab"⟩] ∧
    "ab" ≠ "a" ++ "\n" ++ "b" := by
  exact ⟨by decide, by decide⟩

lemma filter_truthy_text_map (texts : List String) (h : ∀ t ∈ texts, t ≠ "") :
    ((texts.map GPart.text).filter hasTruthyText).map GPart.textOrEmpty = texts := by
  induction texts with
  | nil => rfl
  | cons t rest ih =>
      have ht : t ≠ "" := h t (by simp)
      have : hasTruthyText (GPart.text t) = true := by
        simp [hasTruthyText, jsTruthy, ht]
      simp only [List.map_cons, List.filter_cons, this, if_pos, List.map_cons]
      rw [ih (fun x hx => h x (by simp [hx]))]
      rfl

lemma filter_pos_length_map (texts : List String) (h : ∀ t ∈ texts, t ≠ "") :
    ((texts.map GPart.text).map GPart.textOrEmpty).filter (fun s => s.length > 0) = texts := by
  induction texts with
  | nil => rfl
  | cons t rest ih =>
      have ht : t ≠ "" := h t (by simp)
      have hlen : t.length > 0 := by
        have hd : t.data ≠ [] := fun hdd => ht (String.ext hdd)
        exact List.length_pos.mpr hd
      simp only [List.map_cons, List.filter_cons, GPart.textOrEmpty, GPart.textOpt]
      rw [if_pos (by simpa using hlen)]
      rw [ih (fun x hx => h x (by simp [hx]))]

lemma joinSep_ne_empty (sep t : String) (rest : List String) (ht : t ≠ "") :
    joinSep sep (t :: rest) ≠ "" := by
  cases rest with
  | nil => simpa [joinSep] using ht
  | cons u more =>
      simp only [joinSep]
      intro hcontra
      have hlen := congrArg String.length hcontra
      rw [show (("" : String).length) = 0 from rfl] at hlen
      simp only [String.length_append] at hlen
      have : t.length = 0 := by omega
      exact ht (String.ext (List.length_eq_zero.mp this))

/-- C8 amended: for a user turn consisting of non-empty text parts, the
Hunyuan translator joins the texts into one message content with a newline
separator between each adjacent pair, while the Kimi translator joins the
same texts with no separator, concatenating them directly. -/
theorem c8_text_joining (texts : List String) (hne : texts ≠ [])
    (h : ∀ t ∈ texts, t ≠ "") :
    convertToOpenAIMessages [⟨"user", texts.map GPart.text⟩] =
      [⟨"user", joinSep "\n" texts⟩] ∧
    convertContentsToKimiMessages [⟨"user", texts.map GPart.text⟩] none =
      [⟨"user", joinSep "" texts⟩] := by
  obtain ⟨t, rest, rfl⟩ : ∃ t rest, texts = t :: rest := by
    cases texts with
    | nil => exact absurd rfl hne
    | cons t rest => exact ⟨t, rest, rfl⟩
  have ht : t ≠ "" := h t (by simp)
  constructor
  · simp only [convertToOpenAIMessages, if_pos rfl]
    rw [filter_truthy_text_map _ h]
    simp [joinSep_ne_empty "\n" t rest ht]
  · simp only [convertContentsToKimiMessages, kimiHistoryMessages, if_pos rfl]
    rw [filter_pos_length_map _ h]
    simp [joinSep_ne_empty "" t rest ht]

/-- Witness for C8 at the concrete texts a and b. -/
theorem c8_text_joining_witness :
    convertToOpenAIMessages [⟨"user", [GPart.text "a", GPart.text "b"]⟩] =
      [⟨"user", joinSep "\n" ["a", "b"]⟩] ∧
    convertContentsToKimiMessages [⟨"user", [GPart.text "a", GPart.text "b"]⟩] none =
      [⟨"user", joinSep "" ["a", "b"]⟩] := by
  have := c8_text_joining ["a", "b"] (by decide) (by decide)
  simpa using this

/- ===== Model alias mapping (C9) ===== -/

/-- The alias table modelMap of KimiClient.mapModelToKimi (kimiClient.ts
lines 404 to 431). -/
def kimiModelMap : List (String × String) :=
  [("kimi-1", "moonshot-v1-8k"),
   ("kimi-2", "moonshot-v1-32k"),
   ("kimi-3", "moonshot-v1-128k"),
   ("kimi-pro", "moonshot-v1-8k"),
   ("kimi-plus", "moonshot-v1-32k"),
   ("kimi-max", "moonshot-v1-128k"),
   ("moonshot-v1-8k", "moonshot-v1-8k"),
   ("moonshot-v1-32k", "moonshot-v1-32k"),
   ("moonshot-v1-128k", "moonshot-v1-128k")]

/-- Embedding of KimiClient.mapModelToKimi: the lowercased name is looked up
in the alias table; on a miss, a name starting with kimi- or moonshot- is
returned unchanged, and every other name falls back to moonshot-v1-32k. -/
def mapModelToKimi (model : String) : String :=
  match kimiModelMap.lookup (jsToLower model) with
  | some v => v
  | none =>
      if jsStartsWith (jsToLower model) "kimi-" ||
          jsStartsWith (jsToLower model) "moonshot-" then model
      else "moonshot-v1-32k"

/-- Counterexample to C9: the name gemini-2.5-pro is not in the alias table,
yet the mapping does not pass it through unchanged; it is remapped to the
default moonshot-v1-32k. -/
theorem c9_counterexample :
    kimiModelMap.lookup (jsToLower "gemini-2.5-pro") = none ∧
    mapModelToKimi "gemini-2.5-pro" = "moonshot-v1-32k" ∧
    mapModelToKimi "gemini-2.5-pro" ≠ "gemini-2.5-pro" := by
  exact ⟨by decide, by decide, by decide⟩

/-- C9 amended: a name missing from the alias table passes through unchanged
only when its lowercase form starts with kimi- or moonshot-; every other
unrecognized name is remapped to the default moonshot-v1-32k, and names
present in the table are remapped to their table entry. -/
theorem c9_alias_passthrough (m : String)
    (hmiss : kimiModelMap.lookup (jsToLower m) = none) :
    ((jsStartsWith (jsToLower m) "kimi-" ||
        jsStartsWith (jsToLower m) "moonshot-") = true →
      mapModelToKimi m = m) ∧
    ((jsStartsWith (jsToLower m) "kimi-" ||
        jsStartsWith (jsToLower m) "moonshot-") = false →
      mapModelToKimi m = "moonshot-v1-32k") := by
  constructor <;> intro hpre <;> simp [mapModelToKimi, hmiss, hpre]

/-- Witness for C9 at the unlisted native name moonshot-v2-test. -/
theorem c9_alias_passthrough_witness :
    mapModelToKimi "moonshot-v2-test" = "moonshot-v2-test" :=
  (c9_alias_passthrough "moonshot-v2-test" (by decide)).1 (by decide)

/- ===== Stream aggregation (C3, C4): KimiClient.generateContentStream,
   kimiClient.ts lines 284 to 366 ===== -/

/-- The delta of one choice of a parsed Kimi stream chunk. -/
structure KimiDelta where
  content : Option String
  finishReason : Option String
deriving DecidableEq, Repr

/-- A parsed Kimi stream chunk. -/
structure KimiChunk where
  model : String
  choices : List KimiDelta
deriving DecidableEq, Repr

/-- One raw data frame of the stream, classified by the parse step of the
loop body: the [DONE] sentinel is skipped, a frame whose payload parses as
JSON carries a chunk, a frame whose payload fails to parse is caught and
ignored, and a line not starting with the data prefix is skipped. -/
inductive Frame where
  | done
  | chunk (c : KimiChunk)
  | malformed
  | other
deriving DecidableEq, Repr

/-- Usage metadata of a unified response. -/
structure KimiUsage where
  promptTokenCount : Nat
  candidatesTokenCount : Nat
  totalTokenCount : Nat
deriving DecidableEq, Repr

/-- A unified response emitted by the Kimi stream generator, reduced to the
fields the source populates. -/
structure KimiResp where
  text : String
  finishReason : Option String
  usage : Option KimiUsage
  modelVersion : String
deriving DecidableEq, Repr

/-- Accumulated state and emissions of a processing step. -/
structure KimiStepResult where
  acc : String
  usage : Option KimiUsage
  outs : List KimiResp
deriving DecidableEq, Repr

/-- Embedding of the per-frame body of the streaming loop (kimiClient.ts
lines 303 to 344): on a parsed chunk whose first choice has truthy delta
content, the fragment is appended to the accumulated content and one
response carrying the whole accumulated content is emitted; then, if the
choice carries a truthy finish reason, the usage estimate is recomputed from
the accumulated length. The sentinel, malformed frames and non-data lines
change nothing. -/
def kimiStep (acc : String) (usage : Option KimiUsage) : Frame → KimiStepResult
  | .done => ⟨acc, usage, []⟩
  | .malformed => ⟨acc, usage, []⟩
  | .other => ⟨acc, usage, []⟩
  | .chunk c =>
      match c.choices.head? with
      | none => ⟨acc, usage, []⟩
      | some d =>
          match d.content with
          | some s =>
              if s = "" then
                ⟨acc, if jsTruthyOpt d.finishReason then
                  some ⟨0, acc.length / 4, acc.length / 4⟩ else usage, []⟩
              else
                ⟨acc ++ s,
                 if jsTruthyOpt d.finishReason then
                   some ⟨0, (acc ++ s).length / 4, (acc ++ s).length / 4⟩ else usage,
                 [⟨acc ++ s, d.finishReason, none, c.model⟩]⟩
          | none =>
              ⟨acc, if jsTruthyOpt d.finishReason then
                some ⟨0, acc.length / 4, acc.length / 4⟩ else usage, []⟩

/-- Sequential processing of the frame list by the streaming loop,
threading the accumulated content and usage and concatenating emissions in
arrival order. -/
def kimiProcess (acc : String) (usage : Option KimiUsage) : List Frame → KimiStepResult
  | [] => ⟨acc, usage, []⟩
  | f :: fs =>
      let s1 := kimiStep acc usage f
      let s2 := kimiProcess s1.acc s1.usage fs
      ⟨s2.acc, s2.usage, s1.outs ++ s2.outs⟩

/-- Embedding of the whole of KimiClient.generateContentStream after the
HTTP call: the frames are processed in order and afterwards, if the
accumulated content is truthy, one final response carrying the full
accumulated content, the finish reason STOP and the tracked usage is
emitted. -/
def kimiStreamResponses (kimiModel : String) (frames : List Frame) : List KimiResp :=
  let r := kimiProcess "" none frames
  if r.acc = "" then r.outs
  else r.outs ++ [⟨r.acc, some "STOP", r.usage, kimiModel⟩]

/-- The content fragment a frame contributes: the truthy delta content of
the first choice of a parsed chunk, nothing otherwise. -/
def frameContent : Frame → Option String
  | .chunk c =>
      match c.choices.head? with
      | some d =>
          match d.content with
          | some s => if s = "" then none else some s
          | none => none
      | none => none
  | _ => none

/-- The ordered content fragments of a frame list. -/
def streamContents (fs : List Frame) : List String := fs.filterMap frameContent

/-- Whether some frame carries a truthy finish reason on its first choice. -/
def hasFinishSignal (fs : List Frame) : Bool :=
  fs.any (fun f =>
    match f with
    | .chunk c =>
        match c.choices.head? with
        | some d => jsTruthyOpt d.finishReason
        | none => false
    | _ => false)

/-- The ever-growing snapshots: cumulative concatenations of the fragments,
starting from a given prefix. -/
def cumulative (acc : String) : List String → List String
  | [] => []
  | s :: rest => (acc ++ s) :: cumulative (acc ++ s) rest

lemma kimiStep_acc (acc : String) (usage : Option KimiUsage) (f : Frame) :
    (kimiStep acc usage f).acc =
      match frameContent f with
      | some s => acc ++ s
      | none => acc := by
  cases f with
  | done => rfl
  | malformed => rfl
  | other => rfl
  | chunk c =>
      rcases c with ⟨model, choices⟩
      rcases choices with _ | ⟨d, ds⟩
      · rfl
      · rcases d with ⟨cont, fin⟩
        rcases cont with _ | s
        · rfl
        · by_cases hs : s = "" <;> simp [kimiStep, frameContent, hs]

lemma kimiStep_texts (acc : String) (usage : Option KimiUsage) (f : Frame) :
    (kimiStep acc usage f).outs.map KimiResp.text =
      match frameContent f with
      | some s => [acc ++ s]
      | none => [] := by
  cases f with
  | done => rfl
  | malformed => rfl
  | other => rfl
  | chunk c =>
      rcases c with ⟨model, choices⟩
      rcases choices with _ | ⟨d, ds⟩
      · rfl
      · rcases d with ⟨cont, fin⟩
        rcases cont with _ | s
        · rfl
        · by_cases hs : s = "" <;> simp [kimiStep, frameContent, hs]

lemma kimiProcess_acc (fs : List Frame) :
    ∀ acc usage, (kimiProcess acc usage fs).acc = acc ++ catAll (streamContents fs) := by
  induction fs with
  | nil => intro acc usage; simp [kimiProcess, streamContents, catAll]
  | cons f fs ih =>
      intro acc usage
      simp only [kimiProcess]
      rw [ih, kimiStep_acc]
      cases hf : frameContent f with
      | none => simp [streamContents, List.filterMap_cons, hf]
      | some s =>
          simp [streamContents, List.filterMap_cons, hf, catAll, String.append_assoc]

lemma kimiProcess_texts (fs : List Frame) :
    ∀ acc usage, (kimiProcess acc usage fs).outs.map KimiResp.text
      = cumulative acc (streamContents fs) := by
  induction fs with
  | nil => intro acc usage; simp [kimiProcess, streamContents, cumulative]
  | cons f fs ih =>
      intro acc usage
      simp only [kimiProcess, List.map_append]
      rw [ih, kimiStep_texts, kimiStep_acc]
      cases hf : frameContent f with
      | none => simp [streamContents, List.filterMap_cons, hf]
      | some s =>
          simp [streamContents, List.filterMap_cons, hf, cumulative]

lemma cumulative_chain (l : List String) :
    ∀ acc, List.Chain' (fun a b : String => a.length ≤ b.length) (cumulative acc l) := by
  induction l with
  | nil => intro acc; simp [cumulative]
  | cons s t ih =>
      intro acc
      rw [cumulative, List.chain'_cons']
      refine ⟨fun y hy => ?_, ih (acc ++ s)⟩
      cases t with
      | nil => simp [cumulative] at hy
      | cons u v =>
          rw [cumulative] at hy
          simp only [List.head?_cons, Option.mem_def, Option.some.injEq] at hy
          subst hy
          simp [String.length_append]

lemma cumulative_getLast (l : List String) :
    ∀ acc, l ≠ [] → (cumulative acc l).getLast? = some (acc ++ catAll l) := by
  induction l with
  | nil => intro acc h; exact absurd rfl h
  | cons s t ih =>
      intro acc _
      cases t with
      | nil =>
          simp [cumulative, catAll]
      | cons u v =>
          rw [cumulative, cumulative, List.getLast?_cons_cons, ← cumulative,
            ih (acc ++ s) (by simp)]
          simp [catAll, String.append_assoc]

lemma frameContent_ne_empty (f : Frame) (s : String) (h : frameContent f = some s) :
    s ≠ "" := by
  cases f with
  | done => simp [frameContent] at h
  | malformed => simp [frameContent] at h
  | other => simp [frameContent] at h
  | chunk c =>
      rcases c with ⟨model, choices⟩
      rcases choices with _ | ⟨d, ds⟩
      · simp [frameContent] at h
      · rcases d with ⟨cont, fin⟩
        rcases cont with _ | t
        · simp [frameContent] at h
        · by_cases ht : t = "" <;> simp [frameContent, ht] at h
          subst h; exact ht

lemma streamContents_ne_empty (fs : List Frame) (s : String)
    (h : s ∈ streamContents fs) : s ≠ "" := by
  obtain ⟨f, _, hf⟩ := List.mem_filterMap.mp h
  exact frameContent_ne_empty f s hf

lemma catAll_ne_empty (s : String) (t : List String) (hs : s ≠ "") :
    catAll (s :: t) ≠ "" := by
  intro hcontra
  have hlen := congrArg String.length hcontra
  rw [show (("" : String).length) = 0 from rfl] at hlen
  simp only [catAll, String.length_append] at hlen
  have : s.length = 0 := by omega
  exact hs (String.ext (List.length_eq_zero.mp this))

/- ===== Stream aggregation (C3): HunyuanContentGenerator.streamGenerator,
   hunyuanContentGenerator.ts lines 63 to 108 ===== -/

/-- The delta of one choice of a Hunyuan stream chunk: the only field the
loop reads is content. -/
structure HYDelta where
  content : Option String
deriving DecidableEq, Repr

/-- One choice of a Hunyuan stream chunk, reduced to the delta field the
loop reads. -/
structure HYChoice where
  delta : HYDelta
deriving DecidableEq, Repr

/-- The provider usage object of a Hunyuan stream chunk, reduced to the two
fields the loop reads; the or-zero guards of the source are the identity on
these natural-number fields. -/
structure HYProviderUsage where
  prompt_tokens : Nat
  total_tokens : Nat
deriving DecidableEq, Repr

/-- A Hunyuan stream chunk as delivered by the OpenAI SDK iterator, reduced
to the fields the loop reads. -/
structure HYChunk where
  choices : List HYChoice
  usage : Option HYProviderUsage
deriving DecidableEq, Repr

/-- A unified response built by createGenerateContentResponse
(hunyuanContentGenerator.ts lines 230 to 248), reduced to the fields the
source populates with stream data. -/
structure HYResp where
  text : String
  usage : KimiUsage
  modelVersion : String
deriving DecidableEq, Repr

/-- The content-accumulation step of the Hunyuan loop body: when the delta
of the first choice has truthy content, the fragment is appended to the
accumulated text and the approximate candidates token count is incremented;
otherwise both are unchanged. -/
def hunyuanStep (acc : String) (cand : Nat) (c : HYChunk) : String × Nat :=
  match c.choices.head? with
  | some ch =>
      match ch.delta.content with
      | some s => if s = "" then (acc, cand) else (acc ++ s, cand + 1)
      | none => (acc, cand)
  | none => (acc, cand)

/-- The usage-tracking step of the Hunyuan loop body: a truthy chunk usage
overwrites the tracked totals, otherwise they are kept. -/
def hunyuanUsageStep (tot prompt : Nat) (c : HYChunk) : Nat × Nat :=
  match c.usage with
  | some u => (u.total_tokens, u.prompt_tokens)
  | none => (tot, prompt)

/-- Embedding of the whole for-await loop of
HunyuanContentGenerator.streamGenerator (lines 83 to 107): every chunk,
with or without content, yields exactly one unified response carrying the
accumulated text so far and the current usage metadata, whose total falls
back to prompt plus candidates when the tracked total is zero. There is no
finish-reason handling and no separate final emission. -/
def hunyuanGo (model acc : String) (tot prompt cand : Nat) :
    List HYChunk → List HYResp
  | [] => []
  | c :: rest =>
      ⟨(hunyuanStep acc cand c).1,
       ⟨(hunyuanUsageStep tot prompt c).2,
        (hunyuanStep acc cand c).2,
        if (hunyuanUsageStep tot prompt c).1 = 0 then
          (hunyuanUsageStep tot prompt c).2 + (hunyuanStep acc cand c).2
        else (hunyuanUsageStep tot prompt c).1⟩,
       model⟩ ::
        hunyuanGo model (hunyuanStep acc cand c).1 (hunyuanUsageStep tot prompt c).1
          (hunyuanUsageStep tot prompt c).2 (hunyuanStep acc cand c).2 rest

/-- The responses emitted by HunyuanContentGenerator.streamGenerator for a
chunk sequence, starting from the initial loop state. -/
def hunyuanStreamResponses (model : String) (chunks : List HYChunk) : List HYResp :=
  hunyuanGo model "" 0 0 0 chunks

/-- The content fragment a Hunyuan chunk contributes: the truthy delta
content of its first choice, nothing otherwise. -/
def hyChunkContent (c : HYChunk) : Option String :=
  match c.choices.head? with
  | some ch =>
      match ch.delta.content with
      | some s => if s = "" then none else some s
      | none => none
  | none => none

/-- The accumulated text after one optional fragment. -/
def snapAcc (acc : String) : Option String → String
  | some s => acc ++ s
  | none => acc

/-- The ever-growing snapshots of a sequence of optional fragments: one
entry per element, repeating the current accumulation when the element
contributes nothing. -/
def snapshots (acc : String) : List (Option String) → List String
  | [] => []
  | o :: rest => snapAcc acc o :: snapshots (snapAcc acc o) rest

lemma hunyuanStep_fst (acc : String) (cand : Nat) (c : HYChunk) :
    (hunyuanStep acc cand c).1 = snapAcc acc (hyChunkContent c) := by
  rcases c with ⟨choices, usage⟩
  rcases choices with _ | ⟨ch, rest⟩
  · rfl
  · rcases ch with ⟨⟨cont⟩⟩
    rcases cont with _ | s
    · rfl
    · by_cases hs : s = "" <;> simp [hunyuanStep, hyChunkContent, snapAcc, hs]

lemma hunyuanGo_texts (chunks : List HYChunk) :
    ∀ model acc tot prompt cand,
      (hunyuanGo model acc tot prompt cand chunks).map HYResp.text
        = snapshots acc (chunks.map hyChunkContent) := by
  induction chunks with
  | nil => intro model acc tot prompt cand; rfl
  | cons c rest ih =>
      intro model acc tot prompt cand
      simp only [hunyuanGo, List.map_cons, snapshots, hunyuanStep_fst, ih]

lemma hunyuanGo_length (chunks : List HYChunk) :
    ∀ model acc tot prompt cand,
      (hunyuanGo model acc tot prompt cand chunks).length = chunks.length := by
  induction chunks with
  | nil => intro model acc tot prompt cand; rfl
  | cons c rest ih =>
      intro model acc tot prompt cand
      simp only [hunyuanGo, List.length_cons, ih]

lemma snapshots_head_ge (l : List (Option String)) (acc y : String)
    (h : (snapshots acc l).head? = some y) : acc.length ≤ y.length := by
  cases l with
  | nil => simp [snapshots] at h
  | cons o t =>
      simp only [snapshots, List.head?_cons, Option.some.injEq] at h
      subst h
      cases o with
      | none => simp [snapAcc]
      | some s => simp [snapAcc, String.length_append]

lemma snapshots_chain (l : List (Option String)) :
    ∀ acc, List.Chain' (fun a b : String => a.length ≤ b.length) (snapshots acc l) := by
  induction l with
  | nil => intro acc; simp [snapshots]
  | cons o t ih =>
      intro acc
      rw [snapshots, List.chain'_cons']
      refine ⟨fun y hy => ?_, ih (snapAcc acc o)⟩
      exact snapshots_head_ge t (snapAcc acc o) y (Option.mem_def.mp hy)

lemma snapshots_getLast (l : List (Option String)) :
    ∀ acc, l ≠ [] → (snapshots acc l).getLast? = some (acc ++ catAll (l.filterMap id)) := by
  induction l with
  | nil => intro acc h; exact absurd rfl h
  | cons o t ih =>
      intro acc _
      cases t with
      | nil => cases o <;> simp [snapshots, snapAcc, catAll]
      | cons u v =>
          rw [snapshots, snapshots, List.getLast?_cons_cons, ← snapshots,
            ih (snapAcc acc o) (by simp)]
          cases o <;> simp [snapAcc, List.filterMap_cons, catAll, String.append_assoc]

/-- Counterexample to C3: a Kimi stream whose only data frame carries a
finish signal and no content fragment terminates with an empty output
sequence; despite the finish signal, no final unified response is emitted
at all, because the source gates the final emission on a non-empty
accumulated content, not on the finish signal. -/
theorem c3_counterexample :
    hasFinishSignal [Frame.chunk ⟨"moonshot-v1-32k", [⟨none, some "stop"⟩]⟩,
      Frame.done] = true ∧
    kimiStreamResponses "moonshot-v1-32k"
      [Frame.chunk ⟨"moonshot-v1-32k", [⟨none, some "stop"⟩]⟩, Frame.done] = [] := by
  exact ⟨rfl, rfl⟩

lemma kimiStream_spec (model : String) (fs : List Frame)
    (h : streamContents fs ≠ []) :
    (kimiStreamResponses model fs).map KimiResp.text
      = cumulative "" (streamContents fs) ++ [catAll (streamContents fs)] ∧
    List.Chain' (fun a b => a.text.length ≤ b.text.length)
      (kimiStreamResponses model fs) ∧
    (kimiStreamResponses model fs).getLast?.map KimiResp.finishReason
      = some (some "STOP") := by
  obtain ⟨s, t, hst⟩ : ∃ s t, streamContents fs = s :: t := by
    cases hsc : streamContents fs with
    | nil => exact absurd hsc h
    | cons s t => exact ⟨s, t, rfl⟩
  have hs : s ≠ "" := streamContents_ne_empty fs s (by rw [hst]; simp)
  have hacc : (kimiProcess "" none fs).acc = catAll (streamContents fs) := by
    rw [kimiProcess_acc]; simp
  have hne : (kimiProcess "" none fs).acc ≠ "" := by
    rw [hacc, hst]; exact catAll_ne_empty s t hs
  have hout : kimiStreamResponses model fs
      = (kimiProcess "" none fs).outs ++
        [⟨(kimiProcess "" none fs).acc, some "STOP",
          (kimiProcess "" none fs).usage, model⟩] := by
    simp [kimiStreamResponses, hne]
  have hmap : (kimiStreamResponses model fs).map KimiResp.text
      = cumulative "" (streamContents fs) ++ [catAll (streamContents fs)] := by
    rw [hout]
    simp [kimiProcess_texts, hacc]
  refine ⟨hmap, ?_, ?_⟩
  · have hchain : List.Chain' (fun a b : String => a.length ≤ b.length)
        ((kimiStreamResponses model fs).map KimiResp.text) := by
      rw [hmap]
      rw [List.chain'_append]
      refine ⟨cumulative_chain _ "", List.chain'_singleton _, fun x hx y hy => ?_⟩
      rw [hst, cumulative_getLast (s :: t) "" (by simp)] at hx
      simp only [Option.mem_def, Option.some.injEq] at hx
      simp only [List.head?_cons, Option.mem_def, Option.some.injEq] at hy
      subst hx; subst hy
      rw [hst]
      simp
    exact (List.chain'_map KimiResp.text).mp hchain
  · rw [hout, List.getLast?_concat]
    rfl

/-- C3 amended: for the Kimi stream aggregation, provided at least one
content fragment is received, the emitted unified responses are exactly the
ever-growing cumulative snapshots of the fragments followed by one final
response carrying the full accumulated text as the last item, with the
finish reason STOP on that last item, and the emitted text lengths are
monotonically non-decreasing; that final response is emitted at end of
stream whenever the accumulated text is non-empty, whether or not a finish
signal was observed, and a stream with no content fragments emits nothing,
even after a finish signal. The Hunyuan stream aggregation emits exactly
one unified response per chunk, each carrying the cumulative concatenation
of all content fragments received so far, so text lengths are monotonically
non-decreasing; it inspects no finish signal and emits no separate final
response, and for a non-empty chunk sequence the last emitted response
carries the full accumulated text. -/
theorem c3_stream_accumulation (model : String) (fs : List Frame)
    (chunks : List HYChunk) (hk : streamContents fs ≠ []) (hh : chunks ≠ []) :
    (kimiStreamResponses model fs).map KimiResp.text
      = cumulative "" (streamContents fs) ++ [catAll (streamContents fs)] ∧
    List.Chain' (fun a b => a.text.length ≤ b.text.length)
      (kimiStreamResponses model fs) ∧
    (kimiStreamResponses model fs).getLast?.map KimiResp.finishReason
      = some (some "STOP") ∧
    (hunyuanStreamResponses model chunks).map HYResp.text
      = snapshots "" (chunks.map hyChunkContent) ∧
    List.Chain' (fun a b => a.text.length ≤ b.text.length)
      (hunyuanStreamResponses model chunks) ∧
    (hunyuanStreamResponses model chunks).getLast?.map HYResp.text
      = some (catAll ((chunks.map hyChunkContent).filterMap id)) ∧
    (hunyuanStreamResponses model chunks).length = chunks.length := by
  obtain ⟨hk1, hk2, hk3⟩ := kimiStream_spec model fs hk
  have hmapH : (hunyuanStreamResponses model chunks).map HYResp.text
      = snapshots "" (chunks.map hyChunkContent) := hunyuanGo_texts chunks ..
  have hchainH : List.Chain' (fun a b => a.text.length ≤ b.text.length)
      (hunyuanStreamResponses model chunks) := by
    have := snapshots_chain (chunks.map hyChunkContent) ""
    rw [← hmapH] at this
    exact (List.chain'_map HYResp.text).mp this
  have hlastH : (hunyuanStreamResponses model chunks).getLast?.map HYResp.text
      = some (catAll ((chunks.map hyChunkContent).filterMap id)) := by
    rw [← List.getLast?_map, hmapH,
      snapshots_getLast (chunks.map hyChunkContent) "" (by simpa using hh)]
    simp
  exact ⟨hk1, hk2, hk3, hmapH, hchainH, hlastH, hunyuanGo_length chunks ..⟩

/-- Witness for C3 at the Kimi frames carrying He, llo and a stop signal,
and the Hunyuan chunks carrying He and llo. -/
theorem c3_stream_accumulation_witness :
    streamContents [Frame.chunk ⟨"m", [⟨some "He", none⟩]⟩,
        Frame.chunk ⟨"m", [⟨some "llo", none⟩]⟩,
        Frame.chunk ⟨"m", [⟨none, some "stop"⟩]⟩, Frame.done] ≠ [] ∧
    ([⟨[⟨⟨some "He"⟩⟩], none⟩, ⟨[⟨⟨some "llo"⟩⟩], none⟩] : List HYChunk) ≠ [] ∧
    (kimiStreamResponses "m" [Frame.chunk ⟨"m", [⟨some "He", none⟩]⟩,
        Frame.chunk ⟨"m", [⟨some "llo", none⟩]⟩,
        Frame.chunk ⟨"m", [⟨none, some "stop"⟩]⟩, Frame.done]).map KimiResp.text
      = cumulative "" (streamContents [Frame.chunk ⟨"m", [⟨some "He", none⟩]⟩,
          Frame.chunk ⟨"m", [⟨some "llo", none⟩]⟩,
          Frame.chunk ⟨"m", [⟨none, some "stop"⟩]⟩, Frame.done])
        ++ [catAll (streamContents [Frame.chunk ⟨"m", [⟨some "He", none⟩]⟩,
          Frame.chunk ⟨"m", [⟨some "llo", none⟩]⟩,
          Frame.chunk ⟨"m", [⟨none, some "stop"⟩]⟩, Frame.done])] ∧
    (hunyuanStreamResponses "m"
        [⟨[⟨⟨some "He"⟩⟩], none⟩, ⟨[⟨⟨some "llo"⟩⟩], none⟩]).map HYResp.text
      = snapshots "" (([⟨[⟨⟨some "He"⟩⟩], none⟩,
          ⟨[⟨⟨some "llo"⟩⟩], none⟩] : List HYChunk).map hyChunkContent) :=
  ⟨by decide, by decide,
   (c3_stream_accumulation "m" [Frame.chunk ⟨"m", [⟨some "He", none⟩]⟩,
      Frame.chunk ⟨"m", [⟨some "llo", none⟩]⟩,
      Frame.chunk ⟨"m", [⟨none, some "stop"⟩]⟩, Frame.done]
      [⟨[⟨⟨some "He"⟩⟩], none⟩, ⟨[⟨⟨some "llo"⟩⟩], none⟩]
      (by decide) (by decide)).1,
   (c3_stream_accumulation "m" [Frame.chunk ⟨"m", [⟨some "He", none⟩]⟩,
      Frame.chunk ⟨"m", [⟨some "llo", none⟩]⟩,
      Frame.chunk ⟨"m", [⟨none, some "stop"⟩]⟩, Frame.done]
      [⟨[⟨⟨some "He"⟩⟩], none⟩, ⟨[⟨⟨some "llo"⟩⟩], none⟩]
      (by decide) (by decide)).2.2.2.1⟩

/- ===== Stream processing (C4): DeepSeekContentGenerator.generateContentStream,
   unnamed part_003 lines 406 to 516 ===== -/

/-- Classification of the raw arguments text of a streamed tool-call
fragment by the JavaScript truthiness test and JSON.parse call the
converter applies to it: the empty string is falsy and never parsed, a
non-empty string either parses to a structured value (kept here as its
text) or makes JSON.parse throw. -/
inductive DSArgs where
  | emptyText
  | parsedJson (args : String)
  | unparseable (raw : String)
deriving DecidableEq, Repr

/-- The textual form of the empty JSON object used as default arguments. -/
def emptyObjectJson : String := "\x7b\x7d"

/-- The function field of a streamed DeepSeek tool-call fragment. -/
structure DSFunctionFrag where
  name : Option String
  arguments : Option DSArgs
deriving DecidableEq, Repr

/-- A streamed DeepSeek tool-call fragment. -/
structure DSToolCallFrag where
  index : Nat
  function : Option DSFunctionFrag
deriving DecidableEq, Repr

/-- The delta of a DeepSeek stream choice. -/
structure DSDelta where
  content : Option String
  tool_calls : Option (List DSToolCallFrag)
deriving DecidableEq, Repr

/-- One choice of a DeepSeek stream chunk. -/
structure DSStreamChoice where
  delta : DSDelta
  finish_reason : Option String
deriving DecidableEq, Repr

/-- The usage object of a DeepSeek stream chunk. -/
structure DSProviderUsage where
  prompt_tokens : Nat
  completion_tokens : Nat
  total_tokens : Nat
deriving DecidableEq, Repr

/-- A parsed DeepSeek stream chunk, reduced to the fields the converter
reads. -/
structure DSChunk where
  choices : List DSStreamChoice
  usage : Option DSProviderUsage
deriving DecidableEq, Repr

/-- A candidate of a unified response built by the DeepSeek stream
converter. -/
structure DSCandidate where
  parts : List GPart
  finishReason : Option FinishReason
deriving DecidableEq, Repr

/-- A unified response built by the DeepSeek stream converter. -/
structure DSResp where
  candidates : List DSCandidate
  usageMetadata : Option DSProviderUsage
  modelVersion : String
deriving DecidableEq, Repr

/-- Embedding of convertDeepSeekStreamChunkToGemini (unnamed part_003 lines
250 to 317): a chunk with no choice yields a response with no candidates;
otherwise truthy delta content becomes a text part, each tool-call fragment
with a truthy function field becomes a functionCall part whose arguments
are the parsed JSON of its truthy arguments text or the empty object, a
fragment whose arguments text fails to parse being skipped by the catch;
the finish reason is STOP exactly for the provider string stop, and the
chunk usage is carried over when present. -/
def convertDeepSeekStreamChunkToGemini (c : DSChunk) (model : String) : DSResp :=
  match c.choices.head? with
  | none => ⟨[], none, model⟩
  | some choice =>
      ⟨[⟨(match choice.delta.content with
          | some s => if s = "" then [] else [GPart.text s]
          | none => []) ++
         (match choice.delta.tool_calls with
          | some tcs => tcs.filterMap (fun tc =>
              match tc.function with
              | some f =>
                  match f.arguments with
                  | none => some (GPart.functionCall (jsOrDefault f.name "") emptyObjectJson)
                  | some .emptyText =>
                      some (GPart.functionCall (jsOrDefault f.name "") emptyObjectJson)
                  | some (.parsedJson a) =>
                      some (GPart.functionCall (jsOrDefault f.name "") a)
                  | some (.unparseable _) => none
              | none => none)
          | none => []),
         if choice.finish_reason = some "stop" then some .STOP else none⟩],
       c.usage, model⟩

/-- One line of the DeepSeek stream body, classified by the loop (lines 485
to 498 and the trailing-buffer block 502 to 512, which handles one more
line the same way): the empty sentinel and blank or non-data lines are
skipped, a data line either parses to a chunk or is discarded by the
catch. -/
inductive DSFrame where
  | done
  | chunk (c : DSChunk)
  | malformed
  | other
deriving DecidableEq, Repr

/-- Embedding of the frame loop of
DeepSeekContentGenerator.generateContentStream: each parsed chunk is
converted and yielded immediately; every other line yields nothing. -/
def dsStreamResponses (model : String) : List DSFrame → List DSResp
  | [] => []
  | f :: fs =>
      match f with
      | .chunk c => convertDeepSeekStreamChunkToGemini c model :: dsStreamResponses model fs
      | _ => dsStreamResponses model fs

lemma dsStream_malformed_skip (model : String) (l2 : List DSFrame) (l1 : List DSFrame) :
    dsStreamResponses model (l1 ++ DSFrame.malformed :: l2)
      = dsStreamResponses model (l1 ++ l2) := by
  induction l1 with
  | nil => simp [dsStreamResponses]
  | cons f t ih =>
      cases f <;> simp only [List.cons_append, dsStreamResponses, List.append_eq] <;>
        rw [ih]

lemma kimiProcess_malformed_skip (l2 : List Frame) (l1 : List Frame) :
    ∀ acc usage, kimiProcess acc usage (l1 ++ Frame.malformed :: l2)
      = kimiProcess acc usage (l1 ++ l2) := by
  induction l1 with
  | nil => intro acc usage; simp [kimiProcess, kimiStep]
  | cons f t ih =>
      intro acc usage
      simp only [List.cons_append, kimiProcess, List.append_eq]
      rw [ih]

/-- C4: a malformed mid-stream data frame is discarded silently by both
cited stream loops: processing a frame list with a malformed frame inserted
anywhere produces exactly the responses of the list without it, in the Kimi
loop and in the DeepSeek loop alike, so the accumulated state incorporates
exactly the valid frames and the stream completes rather than aborting; the
processing functions are total, so a malformed frame can never surface as an
error. -/
theorem c4_malformed_frame_discarded (model : String) (l1 l2 : List Frame)
    (dm : String) (d1 d2 : List DSFrame) :
    kimiStreamResponses model (l1 ++ Frame.malformed :: l2)
      = kimiStreamResponses model (l1 ++ l2) ∧
    dsStreamResponses dm (d1 ++ DSFrame.malformed :: d2)
      = dsStreamResponses dm (d1 ++ d2) := by
  exact ⟨by simp [kimiStreamResponses, kimiProcess_malformed_skip],
    dsStream_malformed_skip dm d2 d1⟩

end GeminiCLI
